import Mathlib

/-!
Shallow embedding of the AlphaFlow causality engine (alphaflow-server.js).

The engine ingests price ticks, tracks per-asset price state and bounded
history, registers "leader events" on outsized moves, matches follower
ticks against live leader events, and maintains a dense matrix of
per-ordered-pair causality statistics, exposed through read-only REST
projections.

Modelling conventions:
* JavaScript numbers are modelled as `JSNum := Option ℚ`: `some q` is a
  finite number, `none` is `NaN` (the result of `parseFloat` on a
  non-numeric string).  Arithmetic propagates `none`; every comparison
  involving `none` is `false`, matching IEEE/JS `NaN` semantics.  The
  engine never produces infinities on the modelled paths: every division
  it performs is guarded so the divisor is nonzero (the `oldPrice > 0`
  ternary, a leader's `|changePercent| ≥ 2`, `lagTimes.length ≥ 1` and
  `successfulFollows ≥ 1` at the points of division), so mapping a zero
  divisor to `none` is unreachable in the evaluated code.
* Timestamps (`Date.now()`) are an explicit `Int` parameter of each
  processing step.
* The JS objects `marketData.prices`, `priceHistory` and
  `causalityMatrix` are keyed exactly by the fixed `COINS` universe
  (`initializeData` creates those keys and no others are ever added);
  they are modelled as total functions whose value off the universe is
  the initial value, and the iteration order of `Object.keys` is the
  `COINS` insertion order.
* A ticker for a coin outside the universe makes line 171
  (`marketData.prices[coin].price`) throw a `TypeError` before any state
  is mutated; the throw is caught by the `try/catch` of the WebSocket
  message handler, so the observable behaviour is "state unchanged",
  which is how `processTickerUpdate` models that case.
* The `pendingUpdates` broadcast buffer and the periodic persistence are
  outside every claim and are not modelled.
-/

/- The kernel ignores reducibility, but concrete evaluation by `decide`
needs the elaborator to unfold the rational operations Mathlib seals. -/
unseal Rat.sub Rat.add Rat.mul Rat.inv

namespace AlphaFlow

/-- A JavaScript number: `some q` is a finite value, `none` is `NaN`. -/
abbrev JSNum := Option ℚ

/-- JS addition: `NaN` absorbs. -/
def jadd : JSNum → JSNum → JSNum
  | some x, some y => some (x + y)
  | _, _ => none

/-- JS subtraction: `NaN` absorbs. -/
def jsub : JSNum → JSNum → JSNum
  | some x, some y => some (x - y)
  | _, _ => none

/-- JS multiplication: `NaN` absorbs. -/
def jmul : JSNum → JSNum → JSNum
  | some x, some y => some (x * y)
  | _, _ => none

/-- JS division.  A zero divisor is mapped to `none`; the engine only
divides by values it has just checked to be nonzero, so this case is
never exercised on the modelled paths. -/
def jdiv : JSNum → JSNum → JSNum
  | some x, some y => if y = 0 then none else some (x / y)
  | _, _ => none

/-- JS `Math.abs`. -/
def jabs : JSNum → JSNum
  | some x => some |x|
  | none => none

/-- JS `a || b` on numbers: `a` unless `a` is falsy (`0` or `NaN`). -/
def jOr : JSNum → JSNum → JSNum
  | some x, b => if x = 0 then b else some x
  | none, b => b

/-- JS `a < b`: `false` when either side is `NaN`. -/
def jlt : JSNum → JSNum → Bool
  | some x, some y => decide (x < y)
  | _, _ => false

/-- JS `a > b`: `false` when either side is `NaN`. -/
def jgt : JSNum → JSNum → Bool
  | some x, some y => decide (y < x)
  | _, _ => false

/-- JS `a >= b`: `false` when either side is `NaN`. -/
def jge : JSNum → JSNum → Bool
  | some x, some y => decide (y ≤ x)
  | _, _ => false

/-- The configured asset universe (`COINS`). -/
def COINS : List String :=
  ["BTC-USD", "ETH-USD", "SOL-USD", "MATIC-USD", "AVAX-USD",
   "LINK-USD", "DOT-USD", "ATOM-USD", "DOGE-USD", "SHIB-USD",
   "UNI-USD", "AAVE-USD", "CRV-USD", "SUSHI-USD", "MANA-USD",
   "SAND-USD", "AXS-USD", "ENJ-USD", "GRT-USD", "ALGO-USD",
   "LTC-USD", "1INCH-USD", "BAT-USD", "COMP-USD"]

/-- `MOVE_THRESHOLD = 2.0` (percent). -/
def MOVE_THRESHOLD : ℚ := 2

/-- `LAG_WINDOW = 300000` ms (5 minutes). -/
def LAG_WINDOW : Int := 300000

/-- Per-asset price state (`marketData.prices[coin]`). -/
structure PriceState where
  price : JSNum
  change : JSNum
  changePercent : JSNum
  lastUpdate : Int
  deriving DecidableEq

/-- An entry of `leaderEvent.followersResponded[coin]`. -/
structure FollowerResponse where
  lagTime : Int
  changePercent : JSNum
  magnitudeRatio : JSNum
  deriving DecidableEq

/-- A leader event (`marketData.leaderEvents` element).  `direction` is
the string `"pump"` or `"dump"`; `followersResponded` is a JS object
modelled as the association list of its keys in insertion order. -/
structure LeaderEvent where
  timestamp : Int
  leader : String
  price : JSNum
  changePercent : JSNum
  direction : String
  followersResponded : List (String × FollowerResponse)
  deriving DecidableEq

/-- One causality relation (`marketData.causalityMatrix[leader][follower]`). -/
structure Relation where
  lagTimes : List Int
  magnitudeRatios : List JSNum
  successfulFollows : Nat
  missedFollows : Nat
  avgLag : ℚ
  avgMagnitude : JSNum
  followRate : ℚ
  deriving DecidableEq

/-- `marketData.statistics`. -/
structure Statistics where
  totalTicks : Nat
  divergenceEvents : Nat
  startTime : Int
  deriving DecidableEq

/-- The whole engine state (`marketData`). -/
structure MarketState where
  prices : String → PriceState
  priceHistory : String → List JSNum
  leaderEvents : List LeaderEvent
  matrix : String → String → Relation
  statistics : Statistics

/-- A ticker message that reached `processTickerUpdate`:
`price` is the result of `parseFloat(ticker.price)` (`none` = `NaN`). -/
structure Ticker where
  product_id : String
  price : JSNum
  deriving DecidableEq

/-- Initial per-asset price state (`initializeData`). -/
def initPriceState : PriceState :=
  { price := some 0, change := some 0, changePercent := some 0, lastUpdate := 0 }

/-- Initial causality relation (`initializeData`). -/
def initRelation : Relation :=
  { lagTimes := [], magnitudeRatios := [], successfulFollows := 0,
    missedFollows := 0, avgLag := 0, avgMagnitude := some 0, followRate := 0 }

/-- The state right after `initializeData()`. -/
def initialState : MarketState :=
  { prices := fun _ => initPriceState,
    priceHistory := fun _ => [],
    leaderEvents := [],
    matrix := fun _ _ => initRelation,
    statistics := { totalTicks := 0, divergenceEvents := 0, startTime := 0 } }

/-- JS object key assignment `obj[k] = v` on an association list:
overwrite in place if the key exists, else append. -/
def setKey {α : Type} : List (String × α) → String → α → List (String × α)
  | [], k, v => [(k, v)]
  | (k', v') :: rest, k, v =>
      if k' = k then (k, v) :: rest else (k', v') :: setKey rest k v

/-- `history.push(price)` followed by `if (length > 1000) shift()`. -/
def pushShift (l : List JSNum) (p : JSNum) : List JSNum :=
  let l' := l ++ [p]
  if l'.length > 1000 then l'.tail else l'

/-- Line 171: `oldPrice = marketData.prices[coin].price || price`. -/
def tickOldPrice (st : MarketState) (t : Ticker) : JSNum :=
  jOr (st.prices t.product_id).price t.price

/-- Line 172: `priceChange = price - oldPrice`. -/
def tickChange (st : MarketState) (t : Ticker) : JSNum :=
  jsub t.price (tickOldPrice st t)

/-- Line 173: `changePercent = oldPrice > 0 ? (priceChange / oldPrice) * 100 : 0`. -/
def tickCP (st : MarketState) (t : Ticker) : JSNum :=
  if jgt (tickOldPrice st t) (some 0) then
    jmul (jdiv (tickChange st t) (tickOldPrice st t)) (some 100)
  else some 0

/-- Whether a tick registers a new leader event (line 191):
`Math.abs(changePercent) >= MOVE_THRESHOLD`. -/
def isLeaderTick (st : MarketState) (t : Ticker) : Bool :=
  jge (jabs (tickCP st t)) (some MOVE_THRESHOLD)

/-- Accumulator threaded through the follower-matching `forEach`
(lines 212-245): the causality matrix, the global divergence counter,
and the (element-mutated) leader-event array rebuilt in order. -/
structure FollowAcc where
  matrix : String → String → Relation
  divergenceEvents : Nat
  events : List LeaderEvent

/-- Body of the follower-matching `forEach` (lines 212-245), evaluating
the current tick (`coin`, `changePercent`, `timestamp`) against one live
leader event. -/
def evalEvent (coin : String) (changePercent : JSNum) (timestamp : Int)
    (acc : FollowAcc) (ev : LeaderEvent) : FollowAcc :=
  if ev.leader ≠ coin then
    let lagTime := timestamp - ev.timestamp
    if decide (lagTime < LAG_WINDOW) && jge (jabs changePercent) (some (1/200)) then
      let sameDirection :=
        (jgt changePercent (some 0) && jgt ev.changePercent (some 0)) ||
        (jlt changePercent (some 0) && jlt ev.changePercent (some 0))
      if sameDirection then
        let ratioV := jabs (jdiv changePercent ev.changePercent)
        let rel := acc.matrix ev.leader coin
        let lagTimes := rel.lagTimes ++ [lagTime]
        let magnitudeRatios := rel.magnitudeRatios ++ [ratioV]
        let successfulFollows := rel.successfulFollows + 1
        let rel' : Relation :=
          { lagTimes := lagTimes,
            magnitudeRatios := magnitudeRatios,
            successfulFollows := successfulFollows,
            missedFollows := rel.missedFollows,
            avgLag := ((lagTimes.foldl (· + ·) 0 : Int) : ℚ) / (lagTimes.length : ℚ),
            avgMagnitude := jdiv (magnitudeRatios.foldl jadd (some 0))
              (some (magnitudeRatios.length : ℚ)),
            followRate := (successfulFollows : ℚ) /
              ((successfulFollows : ℚ) + (rel.missedFollows : ℚ)) }
        let ev' : LeaderEvent :=
          { ev with followersResponded :=
              setKey ev.followersResponded coin ⟨lagTime, changePercent, ratioV⟩ }
        { matrix := fun l f => if l = ev.leader ∧ f = coin then rel' else acc.matrix l f,
          divergenceEvents := acc.divergenceEvents,
          events := acc.events ++ [ev'] }
      else
        let rel := acc.matrix ev.leader coin
        { matrix := fun l f =>
            if l = ev.leader ∧ f = coin then
              { rel with missedFollows := rel.missedFollows + 1 }
            else acc.matrix l f,
          divergenceEvents := acc.divergenceEvents + 1,
          events := acc.events ++ [ev] }
    else { acc with events := acc.events ++ [ev] }
  else { acc with events := acc.events ++ [ev] }

/-- The leader event constructed at lines 192-199. -/
def newLeaderEvent (st : MarketState) (t : Ticker) (timestamp : Int) : LeaderEvent :=
  { timestamp := timestamp, leader := t.product_id, price := t.price,
    changePercent := tickCP st t,
    direction := if jgt (tickCP st t) (some 0) then "pump" else "dump",
    followersResponded := [] }

/-- `marketData.leaderEvents` right after the leader-detection block
(lines 191-209): on a leader tick push the new event and prune every
event with `timestamp - e.timestamp >= LAG_WINDOW`; on any other tick
the array is left untouched (the prune is inside the `if`). -/
def tickEvents (st : MarketState) (t : Ticker) (timestamp : Int) : List LeaderEvent :=
  if isLeaderTick st t then
    (st.leaderEvents ++ [newLeaderEvent st t timestamp]).filter
      (fun e => decide (timestamp - e.timestamp < LAG_WINDOW))
  else st.leaderEvents

/-- Result of the follower-matching `forEach` (lines 212-245) over the
post-detection event array. -/
def tickFollowAcc (st : MarketState) (t : Ticker) (timestamp : Int) : FollowAcc :=
  (tickEvents st t timestamp).foldl
    (evalEvent t.product_id (tickCP st t) timestamp)
    ⟨st.matrix, st.statistics.divergenceEvents, []⟩

/-- `processTickerUpdate` (lines 165-251).  The `timestamp` parameter is
the `Date.now()` of the call.  For a coin outside the universe the
function is the identity (the source throws before mutating and the
caller catches, see the module docstring). -/
def processTickerUpdate (st : MarketState) (ticker : Ticker) (timestamp : Int) :
    MarketState :=
  if COINS.contains ticker.product_id then
    { prices := fun c =>
        if c = ticker.product_id then
          { price := ticker.price, change := tickChange st ticker,
            changePercent := tickCP st ticker, lastUpdate := timestamp }
        else st.prices c,
      priceHistory := fun c =>
        if c = ticker.product_id then
          pushShift (st.priceHistory ticker.product_id) ticker.price
        else st.priceHistory c,
      leaderEvents := (tickFollowAcc st ticker timestamp).events,
      matrix := (tickFollowAcc st ticker timestamp).matrix,
      statistics := { totalTicks := st.statistics.totalTicks + 1,
                      divergenceEvents := (tickFollowAcc st ticker timestamp).divergenceEvents,
                      startTime := st.statistics.startTime } }
  else st

/-- A message arriving on the upstream WebSocket, as seen by the handler
of lines 142-152: `malformed` is a payload on which `JSON.parse` throws,
`nonTicker` a parsed message whose `type` is not `"ticker"`. -/
inductive WSMessage where
  | malformed : WSMessage
  | nonTicker : WSMessage
  | tick : Ticker → WSMessage
  deriving DecidableEq

/-- The WebSocket `message` handler (lines 142-152): parse failures are
caught and ignored, non-ticker messages are skipped, ticker messages go
to `processTickerUpdate`. -/
def handleMessage (st : MarketState) (msg : WSMessage) (timestamp : Int) :
    MarketState :=
  match msg with
  | .malformed => st
  | .nonTicker => st
  | .tick t => processTickerUpdate st t timestamp

/-- Process a whole tick sequence from the freshly initialized state;
each element carries its `Date.now()` receipt time. -/
def runTicks (msgs : List (Ticker × Int)) : MarketState :=
  msgs.foldl (fun s p => processTickerUpdate s p.1 p.2) initialState

/-- The immutable identity of a leader event: every field except the
accumulating `followersResponded` map. -/
def eventKey (e : LeaderEvent) : Int × String × JSNum × JSNum × String :=
  (e.timestamp, e.leader, e.price, e.changePercent, e.direction)

/-- The last `n` elements of a list, in order (JS `slice(-n)`). -/
def lastN {α : Type} (n : Nat) (l : List α) : List α :=
  l.drop (l.length - n)

/-- The `GET /api/market/prices` response body (lines 356-363); its
`timestamp` field is the `Date.now()` of the call. -/
structure PricesResponse where
  success : Bool
  timestamp : Int
  prices : String → PriceState
  statistics : Statistics

/-- `GET /api/market/prices` (lines 356-363). -/
def apiPrices (st : MarketState) (now : Int) : PricesResponse :=
  { success := true, timestamp := now, prices := st.prices,
    statistics := st.statistics }

/-- `GET /api/market/history/:coin` (lines 365-376): the stored history
array exists (and is truthy, even when empty) exactly for coins of the
universe; unknown coins get a 404, modelled as `none`.  Returns the last
100 points. -/
def apiHistory (st : MarketState) (coin : String) : Option (List JSNum) :=
  if COINS.contains coin then some (lastN 100 (st.priceHistory coin))
  else none

/-- One simplified matrix cell of `GET /api/causality/matrix`. -/
structure MatrixEntry where
  followRate : ℚ
  avgLag : ℚ
  avgMagnitude : JSNum
  sampleSize : Nat
  deriving DecidableEq

/-- The simplified cell built from a relation (lines 386-391). -/
def mkMatrixEntry (rel : Relation) : MatrixEntry :=
  { followRate := rel.followRate, avgLag := rel.avgLag,
    avgMagnitude := rel.avgMagnitude, sampleSize := rel.lagTimes.length }

/-- The `simplifiedMatrix` of `GET /api/causality/matrix` (lines
378-394): for every leader key (in `COINS` insertion order) the row of
followers with `successfulFollows > 0`. -/
def apiMatrixRows (st : MarketState) :
    List (String × List (String × MatrixEntry)) :=
  COINS.map (fun leader =>
    (leader, (COINS.filter (fun f => decide (f ≠ leader))).filterMap
      (fun follower =>
        if (st.matrix leader follower).successfulFollows > 0 then
          some (follower, mkMatrixEntry (st.matrix leader follower))
        else none)))

/-- The `GET /api/causality/matrix` response body (lines 396-400). -/
structure MatrixResponse where
  success : Bool
  matrix : List (String × List (String × MatrixEntry))
  leaderEvents : List LeaderEvent
  deriving DecidableEq

/-- `GET /api/causality/matrix` (lines 378-401). -/
def apiMatrix (st : MarketState) : MatrixResponse :=
  { success := true, matrix := apiMatrixRows st, leaderEvents := st.leaderEvents }

/-- `parseInt(req.query.minSamples) || 10` (line 404): the argument is
the `parseInt` result, `none` when the parameter is absent or does not
parse (`NaN`); `0` is falsy and also falls back to the default 10. -/
def effectiveMinSamples (q : Option Int) : Int :=
  match q with
  | none => 10
  | some n => if n = 0 then 10 else n

/-- One element of the `pairs` array of `GET /api/causality/best-pairs`
(lines 413-422). -/
structure PairEntry where
  leader : String
  follower : String
  followRate : ℚ
  avgLag : ℚ
  avgMagnitude : JSNum
  sampleSize : Nat
  successfulFollows : Nat
  missedFollows : Nat
  deriving DecidableEq

/-- The pair record pushed for a qualifying relation (lines 413-422). -/
def mkPairEntry (leader follower : String) (rel : Relation) : PairEntry :=
  { leader := leader, follower := follower, followRate := rel.followRate,
    avgLag := rel.avgLag, avgMagnitude := rel.avgMagnitude,
    sampleSize := rel.lagTimes.length,
    successfulFollows := rel.successfulFollows,
    missedFollows := rel.missedFollows }

/-- The unsorted `pairs` array collected by the nested `forEach` of
`GET /api/causality/best-pairs` (lines 405-425). -/
def collectPairs (st : MarketState) (minSampleSize : Int) : List PairEntry :=
  COINS.flatMap (fun leader =>
    (COINS.filter (fun f => decide (f ≠ leader))).filterMap (fun follower =>
      if ((st.matrix leader follower).successfulFollows +
            (st.matrix leader follower).missedFollows : Int) ≥ minSampleSize ∧
          (st.matrix leader follower).followRate > 3/5 then
        some (mkPairEntry leader follower (st.matrix leader follower))
      else none))

/-- The `GET /api/causality/best-pairs` response body (lines 430-434). -/
structure BestPairsResponse where
  success : Bool
  pairs : List PairEntry
  totalPairsAnalyzed : Nat
  deriving DecidableEq

/-- The descending-`followRate` order of the sort comparator
`(a, b) => b.followRate - a.followRate` (line 428). -/
def rateGE (a b : PairEntry) : Prop := b.followRate ≤ a.followRate

instance : DecidableRel rateGE := fun a b =>
  inferInstanceAs (Decidable (b.followRate ≤ a.followRate))

instance : IsTotal PairEntry rateGE :=
  ⟨fun a b => le_total b.followRate a.followRate⟩

instance : IsTrans PairEntry rateGE :=
  ⟨fun _ _ _ hab hbc => le_trans hbc hab⟩

/-- `GET /api/causality/best-pairs` (lines 403-435): collect, sort
descending by `followRate` (JS `Array.prototype.sort` is stable; a
stable insertion sort models it), return the top 20. -/
def apiBestPairs (st : MarketState) (q : Option Int) : BestPairsResponse :=
  let pairs := collectPairs st (effectiveMinSamples q)
  let sorted := pairs.insertionSort rateGE
  { success := true, pairs := sorted.take 20, totalPairsAnalyzed := pairs.length }

/-- One data row of `GET /api/export/csv` (line 447), carrying the raw
numeric values; `toFixed` formatting of the three rate/average columns
is presentation only and not modelled. -/
structure CsvRow where
  leader : String
  follower : String
  successfulFollows : Nat
  missedFollows : Nat
  followRate : ℚ
  avgLag : ℚ
  avgMagnitude : JSNum
  sampleSize : Nat
  deriving DecidableEq

/-- The CSV row built from a relation (line 447). -/
def mkCsvRow (leader follower : String) (rel : Relation) : CsvRow :=
  { leader := leader, follower := follower,
    successfulFollows := rel.successfulFollows,
    missedFollows := rel.missedFollows, followRate := rel.followRate,
    avgLag := rel.avgLag, avgMagnitude := rel.avgMagnitude,
    sampleSize := rel.lagTimes.length }

/-- The data rows of `GET /api/export/csv` (lines 437-455): one row per
ordered pair with `successfulFollows + missedFollows > 0`, in the nested
`Object.keys` iteration order. -/
def csvRows (st : MarketState) : List CsvRow :=
  COINS.flatMap (fun leader =>
    (COINS.filter (fun f => decide (f ≠ leader))).filterMap (fun follower =>
      if (st.matrix leader follower).successfulFollows +
          (st.matrix leader follower).missedFollows > 0 then
        some (mkCsvRow leader follower (st.matrix leader follower))
      else none))

/-- The prices carried by the ticks of `msgs` for `coin`, in arrival
order, counting exactly the ticks the engine ingests (coins of the
universe; the price is appended whether or not it parsed). -/
def tickPrices (msgs : List (Ticker × Int)) (coin : String) : List JSNum :=
  msgs.filterMap (fun p =>
    if p.1.product_id = coin ∧ COINS.contains p.1.product_id then some p.1.price
    else none)

/-- Count/list coupling of a relation: `successfulFollows` equals the
length of `lagTimes` and of `magnitudeRatios`. -/
def countsInv (rel : Relation) : Prop :=
  rel.successfulFollows = rel.lagTimes.length ∧
  rel.successfulFollows = rel.magnitudeRatios.length

/-- The stored `followRate` is the quotient computed at the most recent
success: `s / (s + m')` for the miss count `m'` at that moment (which is
at most the current one); `0/(0+0) = 0` covers the initial state. -/
def rateInv (rel : Relation) : Prop :=
  ∃ m', m' ≤ rel.missedFollows ∧
    rel.followRate =
      (rel.successfulFollows : ℚ) / ((rel.successfulFollows : ℚ) + (m' : ℚ))

/-! ### Concrete evaluation states used by counterexamples and witnesses -/

/-- Two BTC ticks: 100 then 103 (+3%, ≥ the 2% threshold), so the second
registers a leader event at time 0. -/
def demoLeadState : MarketState :=
  runTicks [(⟨"BTC-USD", some 100⟩, 0), (⟨"BTC-USD", some 103⟩, 0)]

/-- A first-ever ETH tick (0% change, not a leader, not a follower)
arriving at time 300000 = `LAG_WINDOW` after the leader event. -/
def c1After : MarketState :=
  processTickerUpdate demoLeadState ⟨"ETH-USD", some 100⟩ 300000

/-- Prices for ETH and BTC, a BTC leader event (+3%) at t=10, an ETH
follow in the same direction at t=20 (success), then an ETH move in the
opposite direction at t=30 (miss). -/
def c2Ticks : List (Ticker × Int) :=
  [(⟨"ETH-USD", some 100⟩, 0), (⟨"BTC-USD", some 100⟩, 0),
   (⟨"BTC-USD", some 103⟩, 10), (⟨"ETH-USD", some 101⟩, 20),
   (⟨"ETH-USD", some 100⟩, 30)]

/-- The state after `c2Ticks`. -/
def c2State : MarketState := runTicks c2Ticks

/-- One valid BTC tick. -/
def c3Base : MarketState := runTicks [(⟨"BTC-USD", some 100⟩, 0)]

/-- `c3Base` after a ticker message whose price field does not parse
(`parseFloat` gives `NaN`). -/
def c3After : MarketState := handleMessage c3Base (.tick ⟨"BTC-USD", none⟩) 5

/-- A BTC leader event (+3%) at t=10 followed by ten same-direction ETH
ticks inside the lag window: relation (BTC, ETH) ends with 10 successes,
0 misses, followRate 1. -/
def wTicks : List (Ticker × Int) :=
  [(⟨"ETH-USD", some 100⟩, 0), (⟨"BTC-USD", some 100⟩, 0),
   (⟨"BTC-USD", some 103⟩, 10), (⟨"ETH-USD", some 101⟩, 20),
   (⟨"ETH-USD", some 102⟩, 30), (⟨"ETH-USD", some 103⟩, 40),
   (⟨"ETH-USD", some 104⟩, 50), (⟨"ETH-USD", some 105⟩, 60),
   (⟨"ETH-USD", some 106⟩, 70), (⟨"ETH-USD", some 107⟩, 80),
   (⟨"ETH-USD", some 108⟩, 90), (⟨"ETH-USD", some 109⟩, 100),
   (⟨"ETH-USD", some 110⟩, 110)]

/-- The state after `wTicks`. -/
def wState : MarketState := runTicks wTicks

/-- The best-pairs entry for (BTC, ETH) in `wState`. -/
def pW : PairEntry := mkPairEntry "BTC-USD" "ETH-USD" (wState.matrix "BTC-USD" "ETH-USD")

/-! ## Helper lemmas -/

theorem jgt_zero_iff {a : JSNum} : jgt a (some 0) = true ↔ ∃ x, a = some x ∧ 0 < x := by
  cases a <;> simp [jgt]

theorem jlt_zero_iff {a : JSNum} : jlt a (some 0) = true ↔ ∃ x, a = some x ∧ x < 0 := by
  cases a <;> simp [jlt]

theorem jge_some_iff {a : JSNum} {q : ℚ} :
    jge a (some q) = true ↔ ∃ x, a = some x ∧ q ≤ x := by
  cases a <;> simp [jge]

theorem step_of_not_contains {st : MarketState} {t : Ticker} {ts : Int}
    (h : COINS.contains t.product_id = false) :
    processTickerUpdate st t ts = st := by
  have hm : t.product_id ∉ COINS := by simpa using h
  simp [processTickerUpdate, hm]

theorem step_prices {st : MarketState} {t : Ticker} {ts : Int}
    (h : COINS.contains t.product_id = true) (c : String) :
    (processTickerUpdate st t ts).prices c =
      if c = t.product_id then
        { price := t.price, change := tickChange st t,
          changePercent := tickCP st t, lastUpdate := ts }
      else st.prices c := by
  have hm : t.product_id ∈ COINS := by simpa using h
  simp [processTickerUpdate, hm]

theorem step_priceHistory {st : MarketState} {t : Ticker} {ts : Int}
    (h : COINS.contains t.product_id = true) (c : String) :
    (processTickerUpdate st t ts).priceHistory c =
      if c = t.product_id then pushShift (st.priceHistory t.product_id) t.price
      else st.priceHistory c := by
  have hm : t.product_id ∈ COINS := by simpa using h
  simp [processTickerUpdate, hm]

theorem step_leaderEvents {st : MarketState} {t : Ticker} {ts : Int}
    (h : COINS.contains t.product_id = true) :
    (processTickerUpdate st t ts).leaderEvents = (tickFollowAcc st t ts).events := by
  have hm : t.product_id ∈ COINS := by simpa using h
  simp [processTickerUpdate, hm]

theorem step_matrix {st : MarketState} {t : Ticker} {ts : Int}
    (h : COINS.contains t.product_id = true) :
    (processTickerUpdate st t ts).matrix = (tickFollowAcc st t ts).matrix := by
  have hm : t.product_id ∈ COINS := by simpa using h
  simp [processTickerUpdate, hm]

theorem step_statistics {st : MarketState} {t : Ticker} {ts : Int}
    (h : COINS.contains t.product_id = true) :
    (processTickerUpdate st t ts).statistics =
      { totalTicks := st.statistics.totalTicks + 1,
        divergenceEvents := (tickFollowAcc st t ts).divergenceEvents,
        startTime := st.statistics.startTime } := by
  have hm : t.product_id ∈ COINS := by simpa using h
  simp [processTickerUpdate, hm]

/-! ## C10: the minSamples parameter -/

/-- Claim C10 (confirmed): in the best-pairs query a `minSamples`
parameter that is absent or non-numeric (`parseInt` gives `NaN`) or that
parses to `0` falls back to the default 10, so a request with
`minSamples=0` filters with threshold 10, not 0, and cannot obtain an
unfiltered listing. -/
theorem C10_min_samples_default :
    effectiveMinSamples none = 10 ∧ effectiveMinSamples (some 0) = 10 ∧
    ∀ st : MarketState, apiBestPairs st (some 0) = apiBestPairs st (some 10) ∧
      apiBestPairs st none = apiBestPairs st (some 10) := by
  refine ⟨rfl, by simp [effectiveMinSamples], fun st => ⟨?_, ?_⟩⟩ <;>
    simp [apiBestPairs, effectiveMinSamples]

/-! ## C4: idempotence of reads -/

/-- Claim C4 (refuted): the prices-snapshot endpoint embeds the call
time `Date.now()` in its `timestamp` response field, so two calls on the
same state at different clock readings do not yield identical output. -/
theorem C4_counterexample :
    ¬ apiPrices initialState 0 = apiPrices initialState 1 := by
  intro h
  have h2 := congrArg PricesResponse.timestamp h
  simp [apiPrices] at h2

/-- Claim C4 (amended): the history, matrix, best-pairs and CSV
endpoints are functions of the engine state alone, so with no
intervening ticks repeated calls yield identical output; the prices
endpoint returns identical `prices` and `statistics` components, but its
response as a whole is identical across two calls iff the two clock
readings coincide. -/
theorem C4_reads_amended (st : MarketState) (t1 t2 : Int) (q : Option Int)
    (coin : String) :
    (apiPrices st t1 = apiPrices st t2 ↔ t1 = t2) ∧
    (apiPrices st t1).prices = (apiPrices st t2).prices ∧
    (apiPrices st t1).statistics = (apiPrices st t2).statistics ∧
    apiHistory st coin = apiHistory st coin ∧
    apiMatrix st = apiMatrix st ∧
    apiBestPairs st q = apiBestPairs st q ∧
    csvRows st = csvRows st := by
  refine ⟨⟨fun h => ?_, fun h => by rw [h]⟩, rfl, rfl, rfl, rfl, rfl, rfl⟩
  exact congrArg PricesResponse.timestamp h

/-! ## Leader-event array lemmas -/

theorem evalEvent_events (coin : String) (cp : JSNum) (ts : Int)
    (acc : FollowAcc) (ev : LeaderEvent) :
    ∃ fr, (evalEvent coin cp ts acc ev).events =
      acc.events ++ [{ ev with followersResponded := fr }] := by
  simp only [evalEvent]
  split_ifs with h1 h2 h3
  · exact ⟨setKey ev.followersResponded coin
      ⟨ts - ev.timestamp, cp, jabs (jdiv cp ev.changePercent)⟩, rfl⟩
  · exact ⟨ev.followersResponded, rfl⟩
  · exact ⟨ev.followersResponded, rfl⟩
  · exact ⟨ev.followersResponded, rfl⟩

theorem map_eventKey_evalEvent (coin : String) (cp : JSNum) (ts : Int)
    (acc : FollowAcc) (ev : LeaderEvent) :
    List.map eventKey (evalEvent coin cp ts acc ev).events =
      List.map eventKey acc.events ++ [eventKey ev] := by
  obtain ⟨fr, h⟩ := evalEvent_events coin cp ts acc ev
  rw [h]
  simp [eventKey]

theorem foldl_evalEvent_map_eventKey (coin : String) (cp : JSNum) (ts : Int) :
    ∀ (evs : List LeaderEvent) (acc : FollowAcc),
      List.map eventKey ((evs.foldl (evalEvent coin cp ts) acc).events) =
        List.map eventKey acc.events ++ List.map eventKey evs := by
  intro evs
  induction evs with
  | nil => intro acc; simp
  | cons ev rest ih =>
      intro acc
      rw [List.foldl_cons, ih, map_eventKey_evalEvent]
      simp

theorem foldl_evalEvent_noop (coin : String) (cp : JSNum) (ts : Int)
    (h : jge (jabs cp) (some (1/200)) = false) :
    ∀ (evs : List LeaderEvent) (acc : FollowAcc),
      evs.foldl (evalEvent coin cp ts) acc =
        ⟨acc.matrix, acc.divergenceEvents, acc.events ++ evs⟩ := by
  intro evs
  induction evs with
  | nil => intro acc; simp
  | cons ev rest ih =>
      intro acc
      rw [List.foldl_cons]
      have hstep : evalEvent coin cp ts acc ev =
          ⟨acc.matrix, acc.divergenceEvents, acc.events ++ [ev]⟩ := by
        have hcond : (decide (ts - ev.timestamp < LAG_WINDOW) &&
            jge (jabs cp) (some (1/200))) = false := by
          rw [h, Bool.and_false]
        simp only [evalEvent, hcond]
        split_ifs <;> first | rfl | contradiction
      rw [hstep, ih]
      simp

/-! ## C1: pruning of expired leader events -/

/-- Claim C1 (refuted): the prune of the live leader-event set runs only
inside the leader-detection branch, so a non-leader tick does not prune.
Concretely, a BTC leader event is created at time 0 and a first-ever ETH
tick (0% change, not a leader) is processed at time 300000 = LAG_WINDOW;
afterwards the live set still contains an event aged ≥ LAG_WINDOW,
which the claim says can never happen after any tick. -/
theorem C1_counterexample :
    c1After.leaderEvents.any
      (fun e => decide ((300000 : Int) - e.timestamp ≥ LAG_WINDOW)) = true := by
  decide

/-- Claim C1 (amended): pruning happens exactly on ticks that register a
new leader event: after a leader tick processed at `ts`, the live set
contains no event with `ts − timestamp ≥ LAG_WINDOW`; and a leader
event (identified by its immutable fields) survives any tick processed
strictly before its expiry, on leader and non-leader ticks alike.  On a
non-leader tick expired events are not removed (see the
counterexample). -/
theorem C1_pruning_amended (st : MarketState) (t : Ticker) (ts : Int) :
    (COINS.contains t.product_id = true → isLeaderTick st t = true →
      ∀ e ∈ (processTickerUpdate st t ts).leaderEvents,
        ts - e.timestamp < LAG_WINDOW) ∧
    (∀ e ∈ st.leaderEvents, ts - e.timestamp < LAG_WINDOW →
      eventKey e ∈ List.map eventKey (processTickerUpdate st t ts).leaderEvents) := by
  constructor
  · intro hc hl e he
    have hk : eventKey e ∈ List.map eventKey (tickFollowAcc st t ts).events := by
      rw [step_leaderEvents hc] at he
      exact List.mem_map_of_mem _ he
    rw [tickFollowAcc, foldl_evalEvent_map_eventKey] at hk
    simp only [List.map_nil, List.nil_append] at hk
    obtain ⟨e', he', hke⟩ := List.mem_map.mp hk
    rw [tickEvents, if_pos hl] at he'
    have ht : ts - e'.timestamp < LAG_WINDOW :=
      of_decide_eq_true (List.mem_filter.mp he').2
    have hts : e'.timestamp = e.timestamp := congrArg (fun k => k.1) hke
    omega
  · intro e he hlt
    by_cases hc : COINS.contains t.product_id = true
    · rw [step_leaderEvents hc, tickFollowAcc, foldl_evalEvent_map_eventKey]
      simp only [List.map_nil, List.nil_append]
      apply List.mem_map_of_mem
      rw [tickEvents]
      by_cases hl : isLeaderTick st t = true
      · rw [if_pos hl]
        exact List.mem_filter.mpr ⟨List.mem_append_left _ he, decide_eq_true hlt⟩
      · rw [if_neg hl]
        exact he
    · have hcf : COINS.contains t.product_id = false := by
        simpa using hc
      rw [step_of_not_contains hcf]
      exact List.mem_map_of_mem _ he

/-- Witness for `C1_pruning_amended`: a concrete leader tick leaves only
in-window events, and the surviving BTC event is still live after an
in-window non-leader tick. -/
theorem C1_pruning_amended_witness :
    (10 : Int) - 10 < LAG_WINDOW ∧
    eventKey ⟨0, "BTC-USD", some 103, some 3, "pump", []⟩ ∈
      List.map eventKey
        (processTickerUpdate demoLeadState ⟨"ETH-USD", some 100⟩ 20).leaderEvents := by
  constructor
  · exact (C1_pruning_amended c3Base ⟨"BTC-USD", some 103⟩ 10).1 (by decide) (by decide)
      ⟨10, "BTC-USD", some 103, some 3, "pump", []⟩ (by decide)
  · exact (C1_pruning_amended demoLeadState ⟨"ETH-USD", some 100⟩ 20).2
      ⟨0, "BTC-USD", some 103, some 3, "pump", []⟩ (by decide) (by decide)

/-! ## C3: malformed ticks -/

/-- Claim C3 (refuted): a ticker message for a universe coin whose price
field does not parse (`parseFloat` gives `NaN`) is not discarded: after
one valid BTC tick, such a message still increments `totalTicks` to 2,
overwrites the BTC `PriceState` price with `NaN` and appends `NaN` to
the price history, contradicting "no state mutated, counter not
incremented". -/
theorem C3_counterexample :
    c3After.statistics.totalTicks = c3Base.statistics.totalTicks + 1 ∧
    (c3After.prices "BTC-USD").price = none ∧
    c3After.priceHistory "BTC-USD" = [some 100, none] := by
  decide

/-- Claim C3 (amended): a payload on which `JSON.parse` throws, a parsed
non-ticker message, and a ticker for a coin outside the universe leave
the state unchanged (in particular `totalTicks` is not incremented).  A
ticker for a universe coin whose price does not parse is processed: it
increments `totalTicks`, overwrites the coin's price with `NaN` and
appends `NaN` to its history, but registers no leader event and changes
no leader event, causality relation, or divergence counter. -/
theorem C3_malformed_amended (st : MarketState) (ts : Int) (coin : String)
    (pr : JSNum) :
    handleMessage st .malformed ts = st ∧
    handleMessage st .nonTicker ts = st ∧
    (COINS.contains coin = false → handleMessage st (.tick ⟨coin, pr⟩) ts = st) ∧
    (COINS.contains coin = true →
      (handleMessage st (.tick ⟨coin, none⟩) ts).statistics.totalTicks
          = st.statistics.totalTicks + 1 ∧
      ((handleMessage st (.tick ⟨coin, none⟩) ts).prices coin).price = none ∧
      (handleMessage st (.tick ⟨coin, none⟩) ts).priceHistory coin
          = pushShift (st.priceHistory coin) none ∧
      (handleMessage st (.tick ⟨coin, none⟩) ts).leaderEvents = st.leaderEvents ∧
      (handleMessage st (.tick ⟨coin, none⟩) ts).matrix = st.matrix ∧
      (handleMessage st (.tick ⟨coin, none⟩) ts).statistics.divergenceEvents
          = st.statistics.divergenceEvents) := by
  refine ⟨rfl, rfl, fun hcf => step_of_not_contains hcf, fun hc => ?_⟩
  have hcp : tickCP st ⟨coin, none⟩ = none ∨ tickCP st ⟨coin, none⟩ = some 0 := by
    unfold tickCP
    by_cases hg : jgt (tickOldPrice st ⟨coin, none⟩) (some 0) = true
    · left
      rw [if_pos hg]
      have h1 : tickChange st ⟨coin, none⟩ = none := by
        unfold tickChange
        cases tickOldPrice st ⟨coin, none⟩ <;> rfl
      rw [h1]
      cases tickOldPrice st ⟨coin, none⟩ <;> rfl
    · right
      rw [if_neg hg]
  have hfloor : jge (jabs (tickCP st ⟨coin, none⟩)) (some (1/200)) = false := by
    rcases hcp with h | h <;> rw [h]
    · rfl
    · decide
  have hlead : isLeaderTick st ⟨coin, none⟩ = false := by
    unfold isLeaderTick
    rcases hcp with h | h <;> rw [h]
    · rfl
    · decide
  have hevents : tickEvents st ⟨coin, none⟩ ts = st.leaderEvents := by
    rw [tickEvents, hlead]
    simp
  have hacc : tickFollowAcc st ⟨coin, none⟩ ts =
      ⟨st.matrix, st.statistics.divergenceEvents, st.leaderEvents⟩ := by
    rw [tickFollowAcc, hevents, foldl_evalEvent_noop _ _ _ hfloor]
    simp
  refine ⟨?_, ?_, ?_, ?_, ?_, ?_⟩
  · rw [show (handleMessage st (.tick ⟨coin, none⟩) ts).statistics =
        { totalTicks := st.statistics.totalTicks + 1,
          divergenceEvents := (tickFollowAcc st ⟨coin, none⟩ ts).divergenceEvents,
          startTime := st.statistics.startTime } from step_statistics hc]
  · rw [show (handleMessage st (.tick ⟨coin, none⟩) ts).prices coin =
        if coin = coin then
          { price := none, change := tickChange st ⟨coin, none⟩,
            changePercent := tickCP st ⟨coin, none⟩, lastUpdate := ts }
        else st.prices coin from step_prices hc coin]
    rw [if_pos rfl]
  · rw [show (handleMessage st (.tick ⟨coin, none⟩) ts).priceHistory coin =
        if coin = coin then pushShift (st.priceHistory coin) none
        else st.priceHistory coin from step_priceHistory hc coin]
    rw [if_pos rfl]
  · rw [show (handleMessage st (.tick ⟨coin, none⟩) ts).leaderEvents =
        (tickFollowAcc st ⟨coin, none⟩ ts).events from step_leaderEvents hc, hacc]
  · rw [show (handleMessage st (.tick ⟨coin, none⟩) ts).matrix =
        (tickFollowAcc st ⟨coin, none⟩ ts).matrix from step_matrix hc, hacc]
  · rw [show (handleMessage st (.tick ⟨coin, none⟩) ts).statistics =
        { totalTicks := st.statistics.totalTicks + 1,
          divergenceEvents := (tickFollowAcc st ⟨coin, none⟩ ts).divergenceEvents,
          startTime := st.statistics.startTime } from step_statistics hc, hacc]

/-- Witness for `C3_malformed_amended` at a concrete state: a malformed
payload and an out-of-universe tick are no-ops, a NaN-price BTC tick
increments the counter. -/
theorem C3_malformed_amended_witness :
    handleMessage c3Base .malformed 5 = c3Base ∧
    (handleMessage c3Base (.tick ⟨"BTC-USD", none⟩) 5).statistics.totalTicks
      = c3Base.statistics.totalTicks + 1 ∧
    (handleMessage c3Base (.tick ⟨"BTC-USD", none⟩) 5).leaderEvents
      = c3Base.leaderEvents ∧
    handleMessage c3Base (.tick ⟨"XRP-USD", some 1⟩) 5 = c3Base := by
  have H1 := C3_malformed_amended c3Base 5 "XRP-USD" (some 1)
  have H2 := C3_malformed_amended c3Base 5 "BTC-USD" (some 1)
  exact ⟨H2.1, (H2.2.2.2 (by decide)).1, (H2.2.2.2 (by decide)).2.2.2.1,
    H1.2.2.1 (by decide)⟩

/-! ## C5: bounded price history -/

theorem lastN_eq {α : Type} (n : Nat) (l : List α) :
    lastN n l = l.drop (l.length - n) := rfl

theorem lastN_of_le {α : Type} {n : Nat} {l : List α} (h : l.length ≤ n) :
    lastN n l = l := by
  rw [lastN_eq]
  have h0 : l.length - n = 0 := by omega
  rw [h0, List.drop_zero]

theorem lastN_length_le {α : Type} (n : Nat) (l : List α) :
    (lastN n l).length ≤ n := by
  rw [lastN_eq, List.length_drop]
  omega

theorem lastN_lastN_append {α : Type} (n : Nat) (xs ys : List α) :
    lastN n (lastN n xs ++ ys) = lastN n (xs ++ ys) := by
  rcases le_or_lt xs.length n with h | h
  · rw [lastN_of_le h]
  · have h1 : (lastN n xs).length = n := by
      rw [lastN_eq, List.length_drop]; omega
    rw [lastN_eq n (lastN n xs ++ ys), lastN_eq n (xs ++ ys)]
    rw [List.length_append, h1, List.length_append]
    have e1 : n + ys.length - n = ys.length := by omega
    have e2 : xs.length + ys.length - n = (xs.length - n) + ys.length := by omega
    have hk : xs.length - n ≤ xs.length := by omega
    rw [e1, e2, ← List.drop_drop, List.drop_append_of_le_length hk]
    rfl

theorem pushShift_eq_lastN {l : List JSNum} (p : JSNum) (h : l.length ≤ 1000) :
    pushShift l p = lastN 1000 (l ++ [p]) := by
  unfold pushShift
  rcases eq_or_lt_of_le h with h1 | h1
  · rw [if_pos (by simp; omega)]
    rw [lastN_eq, show (l ++ [p]).length - 1000 = 1 from by simp; omega, List.drop_one]
  · rw [if_neg (by simp; omega)]
    rw [lastN_of_le (by simp; omega)]

theorem pushShift_length_le {l : List JSNum} (p : JSNum) (h : l.length ≤ 1000) :
    (pushShift l p).length ≤ 1000 := by
  rw [pushShift_eq_lastN p h]
  exact lastN_length_le _ _

theorem run_history_aux :
    ∀ (msgs : List (Ticker × Int)) (st : MarketState),
      (∀ c, (st.priceHistory c).length ≤ 1000) →
      ∀ coin,
        (msgs.foldl (fun s p => processTickerUpdate s p.1 p.2) st).priceHistory coin
          = lastN 1000 (st.priceHistory coin ++ tickPrices msgs coin) ∧
        ((msgs.foldl (fun s p => processTickerUpdate s p.1 p.2) st).priceHistory
          coin).length ≤ 1000 := by
  intro msgs
  induction msgs with
  | nil =>
      intro st h coin
      refine ⟨?_, h coin⟩
      simp [tickPrices, lastN_of_le (h coin)]
  | cons m rest ih =>
      intro st h coin
      rw [List.foldl_cons]
      have hinv : ∀ c, ((processTickerUpdate st m.1 m.2).priceHistory c).length ≤ 1000 := by
        intro c
        by_cases hc : COINS.contains m.1.product_id = true
        · rw [step_priceHistory hc]
          by_cases he : c = m.1.product_id
          · rw [if_pos he]; exact pushShift_length_le _ (h _)
          · rw [if_neg he]; exact h c
        · rw [step_of_not_contains (by simpa using hc)]; exact h c
      obtain ⟨ha, hb⟩ := ih (processTickerUpdate st m.1 m.2) hinv coin
      refine ⟨?_, hb⟩
      rw [ha]
      have hTP : tickPrices (m :: rest) coin =
          (if m.1.product_id = coin ∧ COINS.contains m.1.product_id = true
            then [m.1.price] else []) ++ tickPrices rest coin := by
        rw [tickPrices, List.filterMap_cons]
        split_ifs with hcnd
        · simp [tickPrices, hcnd]
        · simp [tickPrices, hcnd]
      by_cases hcase : m.1.product_id = coin ∧ COINS.contains m.1.product_id = true
      · have hhist : (processTickerUpdate st m.1 m.2).priceHistory coin
            = pushShift (st.priceHistory coin) m.1.price := by
          rw [step_priceHistory hcase.2, if_pos hcase.1.symm, hcase.1]
        rw [hhist, hTP, if_pos hcase, pushShift_eq_lastN _ (h coin),
          lastN_lastN_append, List.append_assoc]
      · have hhist : (processTickerUpdate st m.1 m.2).priceHistory coin
            = st.priceHistory coin := by
          by_cases hc : COINS.contains m.1.product_id = true
          · rw [step_priceHistory hc]
            have hne : ¬ coin = m.1.product_id := fun he => hcase ⟨he.symm, hc⟩
            rw [if_neg hne]
          · rw [step_of_not_contains (by simpa using hc)]
        rw [hhist, hTP, if_neg hcase, List.nil_append]

/-- Claim C5 (confirmed): for every asset and every tick sequence, the
price history has length at most 1000 at all times, and its content is
exactly the most recent (at most 1000) ingested prices for that asset in
arrival order — FIFO eviction of the oldest entry. -/
theorem C5_history_bound (msgs : List (Ticker × Int)) (coin : String) :
    ((runTicks msgs).priceHistory coin).length ≤ 1000 ∧
    (runTicks msgs).priceHistory coin = lastN 1000 (tickPrices msgs coin) := by
  have h0 : ∀ c, (initialState.priceHistory c).length ≤ 1000 := by
    intro c; simp [initialState]
  obtain ⟨ha, hb⟩ := run_history_aux msgs initialState h0 coin
  refine ⟨hb, ?_⟩
  simpa [initialState] using ha

/-! ## Matrix-update case analysis for the follower loop -/

theorem evalEvent_matrix_cases (coin : String) (cp : JSNum) (ts : Int)
    (acc : FollowAcc) (ev : LeaderEvent) (l f : String) :
    ((evalEvent coin cp ts acc ev).matrix l f = acc.matrix l f) ∨
    (∃ lag ratio,
      ((evalEvent coin cp ts acc ev).matrix l f).lagTimes
          = (acc.matrix l f).lagTimes ++ [lag] ∧
      ((evalEvent coin cp ts acc ev).matrix l f).magnitudeRatios
          = (acc.matrix l f).magnitudeRatios ++ [ratio] ∧
      ((evalEvent coin cp ts acc ev).matrix l f).successfulFollows
          = (acc.matrix l f).successfulFollows + 1 ∧
      ((evalEvent coin cp ts acc ev).matrix l f).missedFollows
          = (acc.matrix l f).missedFollows ∧
      ((evalEvent coin cp ts acc ev).matrix l f).followRate
          = ((acc.matrix l f).successfulFollows + 1 : ℚ) /
            (((acc.matrix l f).successfulFollows + 1 : ℚ) +
              ((acc.matrix l f).missedFollows : ℚ))) ∨
    (((evalEvent coin cp ts acc ev).matrix l f).lagTimes
          = (acc.matrix l f).lagTimes ∧
      ((evalEvent coin cp ts acc ev).matrix l f).magnitudeRatios
          = (acc.matrix l f).magnitudeRatios ∧
      ((evalEvent coin cp ts acc ev).matrix l f).successfulFollows
          = (acc.matrix l f).successfulFollows ∧
      ((evalEvent coin cp ts acc ev).matrix l f).missedFollows
          = (acc.matrix l f).missedFollows + 1 ∧
      ((evalEvent coin cp ts acc ev).matrix l f).followRate
          = (acc.matrix l f).followRate) := by
  simp only [evalEvent]
  split_ifs with h1 h2 h3
  · by_cases hlf : l = ev.leader ∧ f = coin
    · obtain ⟨hl, hf⟩ := hlf
      subst hl; subst hf
      right; left
      exact ⟨ts - ev.timestamp, jabs (jdiv cp ev.changePercent), by simp, by simp,
        by simp, by simp, by push_cast; simp⟩
    · left; simp [hlf]
  · by_cases hlf : l = ev.leader ∧ f = coin
    · obtain ⟨hl, hf⟩ := hlf
      subst hl; subst hf
      right; right
      exact ⟨by simp, by simp, by simp, by simp, by simp⟩
    · left; simp [hlf]
  · left; rfl
  · left; rfl

theorem evalEvent_preserves_inv (coin : String) (cp : JSNum) (ts : Int)
    (acc : FollowAcc) (ev : LeaderEvent)
    (h : ∀ l f, countsInv (acc.matrix l f) ∧ rateInv (acc.matrix l f)) :
    ∀ l f, countsInv ((evalEvent coin cp ts acc ev).matrix l f) ∧
      rateInv ((evalEvent coin cp ts acc ev).matrix l f) := by
  intro l f
  rcases evalEvent_matrix_cases coin cp ts acc ev l f with
    heq | ⟨lag, ratio, h1, h2, h3, h4, h5⟩ | ⟨h1, h2, h3, h4, h5⟩
  · rw [heq]; exact h l f
  · obtain ⟨⟨hc1, hc2⟩, _⟩ := h l f
    refine ⟨⟨?_, ?_⟩, ?_⟩
    · rw [h3, h1, List.length_append, hc1]; rfl
    · rw [h3, h2, List.length_append, hc2]; rfl
    · refine ⟨(acc.matrix l f).missedFollows, by rw [h4], ?_⟩
      rw [h5, h3]
      push_cast
      ring_nf
  · obtain ⟨⟨hc1, hc2⟩, ⟨m', hm, hrate⟩⟩ := h l f
    refine ⟨⟨?_, ?_⟩, ⟨m', ?_, ?_⟩⟩
    · rw [h3, h1]; exact hc1
    · rw [h3, h2]; exact hc2
    · rw [h4]; omega
    · rw [h5, h3]; exact hrate

theorem foldl_evalEvent_preserves_inv (coin : String) (cp : JSNum) (ts : Int) :
    ∀ (evs : List LeaderEvent) (acc : FollowAcc),
      (∀ l f, countsInv (acc.matrix l f) ∧ rateInv (acc.matrix l f)) →
      ∀ l f, countsInv ((evs.foldl (evalEvent coin cp ts) acc).matrix l f) ∧
        rateInv ((evs.foldl (evalEvent coin cp ts) acc).matrix l f) := by
  intro evs
  induction evs with
  | nil => exact fun acc h => h
  | cons ev rest ih =>
      intro acc h
      rw [List.foldl_cons]
      exact ih _ (evalEvent_preserves_inv coin cp ts acc ev h)

theorem step_preserves_inv {st : MarketState} (t : Ticker) (ts : Int)
    (h : ∀ l f, countsInv (st.matrix l f) ∧ rateInv (st.matrix l f)) :
    ∀ l f, countsInv ((processTickerUpdate st t ts).matrix l f) ∧
      rateInv ((processTickerUpdate st t ts).matrix l f) := by
  by_cases hc : COINS.contains t.product_id = true
  · intro l f
    rw [step_matrix hc, tickFollowAcc]
    exact foldl_evalEvent_preserves_inv _ _ _ _ _ h l f
  · rw [step_of_not_contains (by simpa using hc)]
    exact h

theorem runTicks_inv (msgs : List (Ticker × Int)) :
    ∀ l f, countsInv ((runTicks msgs).matrix l f) ∧
      rateInv ((runTicks msgs).matrix l f) := by
  suffices H : ∀ (ms : List (Ticker × Int)) (st : MarketState),
      (∀ l f, countsInv (st.matrix l f) ∧ rateInv (st.matrix l f)) →
      ∀ l f,
        countsInv ((ms.foldl (fun s p => processTickerUpdate s p.1 p.2) st).matrix l f) ∧
        rateInv ((ms.foldl (fun s p => processTickerUpdate s p.1 p.2) st).matrix l f) by
    refine H msgs initialState fun l f => ⟨⟨rfl, rfl⟩, 0, le_refl 0, ?_⟩
    simp [initialState, initRelation]
  intro ms
  induction ms with
  | nil => exact fun st h => h
  | cons m rest ih =>
      intro st h
      rw [List.foldl_cons]
      exact ih _ (step_preserves_inv m.1 m.2 h)

/-! ## Membership characterizations of the export projections -/

theorem mem_collectPairs {st : MarketState} {minS : Int} {p : PairEntry}
    (h : p ∈ collectPairs st minS) :
    ∃ l f, l ∈ COINS ∧ f ∈ COINS ∧ f ≠ l ∧
      p = mkPairEntry l f (st.matrix l f) ∧
      (((st.matrix l f).successfulFollows + (st.matrix l f).missedFollows : Int) ≥ minS) ∧
      (st.matrix l f).followRate > 3/5 := by
  rw [collectPairs, List.mem_flatMap] at h
  obtain ⟨l, hl, h⟩ := h
  rw [List.mem_filterMap] at h
  obtain ⟨f, hf, hsome⟩ := h
  rw [List.mem_filter] at hf
  obtain ⟨hfC, hfne⟩ := hf
  split_ifs at hsome with hcond
  exact ⟨l, f, hl, hfC, by simpa using hfne, (Option.some.inj hsome).symm,
    hcond.1, hcond.2⟩

theorem mem_collectPairs_intro {st : MarketState} {minS : Int} {l f : String}
    (hl : l ∈ COINS) (hf : f ∈ COINS) (hne : f ≠ l)
    (h1 : ((st.matrix l f).successfulFollows + (st.matrix l f).missedFollows : Int) ≥ minS)
    (h2 : (st.matrix l f).followRate > 3/5) :
    mkPairEntry l f (st.matrix l f) ∈ collectPairs st minS := by
  rw [collectPairs, List.mem_flatMap]
  refine ⟨l, hl, ?_⟩
  rw [List.mem_filterMap]
  refine ⟨f, List.mem_filter.mpr ⟨hf, decide_eq_true hne⟩, ?_⟩
  rw [if_pos ⟨h1, h2⟩]

theorem mem_apiMatrixRows {st : MarketState} {l : String}
    {row : List (String × MatrixEntry)} {f : String} {e : MatrixEntry}
    (h1 : (l, row) ∈ apiMatrixRows st) (h2 : (f, e) ∈ row) :
    (st.matrix l f).successfulFollows > 0 ∧ e = mkMatrixEntry (st.matrix l f) := by
  rw [apiMatrixRows, List.mem_map] at h1
  obtain ⟨leader, hlC, heq⟩ := h1
  have hL : leader = l := congrArg Prod.fst heq
  have hR := congrArg Prod.snd heq
  simp only at hR
  subst hL
  rw [← hR, List.mem_filterMap] at h2
  obtain ⟨f', hf', hsome⟩ := h2
  split_ifs at hsome with hpos
  have hinj := Option.some.inj hsome
  have hf'' : f' = f := congrArg Prod.fst hinj
  have he := congrArg Prod.snd hinj
  simp only at he
  subst hf''
  exact ⟨hpos, he.symm⟩

theorem mem_csvRows {st : MarketState} {r : CsvRow} (h : r ∈ csvRows st) :
    ∃ l f, r = mkCsvRow l f (st.matrix l f) ∧
      (st.matrix l f).successfulFollows + (st.matrix l f).missedFollows > 0 := by
  rw [csvRows, List.mem_flatMap] at h
  obtain ⟨l, hl, h⟩ := h
  rw [List.mem_filterMap] at h
  obtain ⟨f, hf, hsome⟩ := h
  split_ifs at hsome with hpos
  exact ⟨l, f, (Option.some.inj hsome).symm, hpos⟩

/-! ## C9: successfulFollows equals the recorded sample lists -/

/-- Claim C9 (confirmed): after every processed tick sequence, each
relation satisfies `successfulFollows = |lagTimes| = |magnitudeRatios|`
(lag and magnitude entries are appended exactly once per success and
never removed), so the `sampleSize = |lagTimes|` reported by the
best-pairs, matrix and CSV exports equals `successfulFollows`. -/
theorem C9_sample_invariant (msgs : List (Ticker × Int)) :
    (∀ l f, ((runTicks msgs).matrix l f).successfulFollows
        = ((runTicks msgs).matrix l f).lagTimes.length ∧
      ((runTicks msgs).matrix l f).successfulFollows
        = ((runTicks msgs).matrix l f).magnitudeRatios.length) ∧
    (∀ q p, p ∈ (apiBestPairs (runTicks msgs) q).pairs →
      p.sampleSize = p.successfulFollows) ∧
    (∀ l row f e, (l, row) ∈ apiMatrixRows (runTicks msgs) → (f, e) ∈ row →
      e.sampleSize = ((runTicks msgs).matrix l f).successfulFollows) ∧
    (∀ r, r ∈ csvRows (runTicks msgs) → r.sampleSize = r.successfulFollows) := by
  have hinv := runTicks_inv msgs
  refine ⟨fun l f => (hinv l f).1, ?_, ?_, ?_⟩
  · intro q p hp
    have hp1 : p ∈ collectPairs (runTicks msgs) (effectiveMinSamples q) := by
      have hp0 : p ∈ (collectPairs (runTicks msgs)
          (effectiveMinSamples q)).insertionSort rateGE :=
        List.take_subset _ _ hp
      exact (List.perm_insertionSort rateGE _).mem_iff.mp hp0
    obtain ⟨l, f, _, _, _, hpe, _, _⟩ := mem_collectPairs hp1
    rw [hpe]
    exact ((hinv l f).1).1.symm
  · intro l row f e h1 h2
    obtain ⟨_, he⟩ := mem_apiMatrixRows h1 h2
    rw [he]
    exact ((hinv l f).1).1.symm
  · intro r hr
    obtain ⟨l, f, hre, _⟩ := mem_csvRows hr
    rw [hre]
    exact ((hinv l f).1).1.symm

/-- Witness for `C9_sample_invariant` on the concrete `wState` (ten
successes on the (BTC, ETH) pair). -/
theorem C9_sample_invariant_witness :
    ((runTicks wTicks).matrix "BTC-USD" "ETH-USD").successfulFollows
      = ((runTicks wTicks).matrix "BTC-USD" "ETH-USD").lagTimes.length ∧
    pW.sampleSize = pW.successfulFollows := by
  have H := C9_sample_invariant wTicks
  exact ⟨(H.1 "BTC-USD" "ETH-USD").1, H.2.1 (some 10) pW (by decide)⟩

/-! ## C7: directionality -/

/-- Claim C7 (confirmed): when a follower tick is evaluated against a
live leader event of a different asset (lag below `LAG_WINDOW`, change
at least the 0.005 noise floor) whose move has the opposite sign,
`successfulFollows` of that (leader, follower) relation is unchanged
while its `missedFollows` and the global `divergenceEvents` counter are
each incremented by one. -/
theorem C7_directionality (matrixA : String → String → Relation)
    (d : Nat) (evs : List LeaderEvent) (ev : LeaderEvent) (coin : String)
    (cp : JSNum) (ts : Int)
    (hne : ev.leader ≠ coin)
    (hlag : ts - ev.timestamp < LAG_WINDOW)
    (hfloor : jge (jabs cp) (some (1/200)) = true)
    (hopp : (jgt cp (some 0) = true ∧ jlt ev.changePercent (some 0) = true) ∨
            (jlt cp (some 0) = true ∧ jgt ev.changePercent (some 0) = true)) :
    ((evalEvent coin cp ts ⟨matrixA, d, evs⟩ ev).matrix ev.leader coin).successfulFollows =
      (matrixA ev.leader coin).successfulFollows ∧
    ((evalEvent coin cp ts ⟨matrixA, d, evs⟩ ev).matrix ev.leader coin).missedFollows =
      (matrixA ev.leader coin).missedFollows + 1 ∧
    (evalEvent coin cp ts ⟨matrixA, d, evs⟩ ev).divergenceEvents = d + 1 := by
  have hsame : ((jgt cp (some 0) && jgt ev.changePercent (some 0)) ||
      (jlt cp (some 0) && jlt ev.changePercent (some 0))) = false := by
    rcases hopp with ⟨h1, h2⟩ | ⟨h1, h2⟩
    · rcases jgt_zero_iff.mp h1 with ⟨x, hxeq, hx⟩
      rcases jlt_zero_iff.mp h2 with ⟨y, hyeq, hy⟩
      simp [hxeq, hyeq, jgt, jlt, lt_asymm hx, lt_asymm hy]
    · rcases jlt_zero_iff.mp h1 with ⟨x, hxeq, hx⟩
      rcases jgt_zero_iff.mp h2 with ⟨y, hyeq, hy⟩
      simp [hxeq, hyeq, jgt, jlt, lt_asymm hx, lt_asymm hy]
  have hlag' : decide (ts - ev.timestamp < LAG_WINDOW) = true := decide_eq_true hlag
  simp only [one_div] at hfloor
  simp [evalEvent, hne, hlag', hfloor, hsame, one_div]

/-- Witness for `C7_directionality`: the ETH tick of `c2State`'s last
step (−100/101 %) against the live BTC pump event (+3%). -/
theorem C7_directionality_witness :
    ((evalEvent "ETH-USD" (some (-(100/101))) 30
        ⟨(fun _ _ => initRelation), 0, []⟩
        ⟨10, "BTC-USD", some 103, some 3, "pump", []⟩).matrix
      "BTC-USD" "ETH-USD").successfulFollows = initRelation.successfulFollows ∧
    ((evalEvent "ETH-USD" (some (-(100/101))) 30
        ⟨(fun _ _ => initRelation), 0, []⟩
        ⟨10, "BTC-USD", some 103, some 3, "pump", []⟩).matrix
      "BTC-USD" "ETH-USD").missedFollows = initRelation.missedFollows + 1 ∧
    (evalEvent "ETH-USD" (some (-(100/101))) 30
        ⟨(fun _ _ => initRelation), 0, []⟩
        ⟨10, "BTC-USD", some 103, some 3, "pump", []⟩).divergenceEvents = 0 + 1 := by
  have H := C7_directionality (fun _ _ => initRelation) 0 []
    ⟨10, "BTC-USD", some 103, some 3, "pump", []⟩ "ETH-USD"
    (some (-(100/101))) 30 (by decide) (by decide) (by decide)
    (Or.inr ⟨by decide, by decide⟩)
  exact ⟨H.1, H.2.1, H.2.2⟩

/-! ## C8: change and changePercent computation -/

/-- Claim C8 (confirmed): for a tick with a valid price for a universe
coin, the tracker stores `change = price − previousPrice` where a
missing previous price (stored 0, or NaN) is replaced by the incoming
price, giving `change = 0`; `changePercent = change / previousPrice ×
100` when the previous price is positive and the guarded value `0`
otherwise, so `changePercent` is always a defined number and the
division-by-zero guard never propagates a fault. -/
theorem C8_change_computation (st : MarketState) (coin : String) (p : ℚ) (ts : Int)
    (h : COINS.contains coin = true) :
    ((processTickerUpdate st ⟨coin, some p⟩ ts).prices coin).price = some p ∧
    ((processTickerUpdate st ⟨coin, some p⟩ ts).prices coin).lastUpdate = ts ∧
    (∃ q, ((processTickerUpdate st ⟨coin, some p⟩ ts).prices coin).changePercent = some q) ∧
    ((st.prices coin).price = some 0 →
      ((processTickerUpdate st ⟨coin, some p⟩ ts).prices coin).change = some 0 ∧
      ((processTickerUpdate st ⟨coin, some p⟩ ts).prices coin).changePercent = some 0) ∧
    ((st.prices coin).price = none →
      ((processTickerUpdate st ⟨coin, some p⟩ ts).prices coin).change = some 0 ∧
      ((processTickerUpdate st ⟨coin, some p⟩ ts).prices coin).changePercent = some 0) ∧
    (∀ q, (st.prices coin).price = some q → q ≠ 0 →
      ((processTickerUpdate st ⟨coin, some p⟩ ts).prices coin).change = some (p - q)) ∧
    (∀ q, (st.prices coin).price = some q → 0 < q →
      ((processTickerUpdate st ⟨coin, some p⟩ ts).prices coin).changePercent
        = some ((p - q) / q * 100)) ∧
    (∀ q, (st.prices coin).price = some q → q < 0 →
      ((processTickerUpdate st ⟨coin, some p⟩ ts).prices coin).changePercent = some 0) := by
  have hp := @step_prices st ⟨coin, some p⟩ ts h coin
  rw [if_pos rfl] at hp
  rw [hp]
  refine ⟨rfl, rfl, ?_, ?_, ?_, ?_, ?_, ?_⟩
  · by_cases hz : (st.prices coin).price = some 0
    · by_cases hp0 : 0 < p
      · exact ⟨(p - p) / p * 100, by
          simp [tickCP, tickChange, tickOldPrice, hz, jOr, jgt, jsub, jdiv, jmul,
            hp0, ne_of_gt hp0]⟩
      · exact ⟨0, by simp [tickCP, tickChange, tickOldPrice, hz, jOr, jgt, hp0]⟩
    · cases hq : (st.prices coin).price with
      | none =>
        by_cases hp0 : 0 < p
        · exact ⟨(p - p) / p * 100, by
            simp [tickCP, tickChange, tickOldPrice, hq, jOr, jgt, jsub, jdiv, jmul,
              hp0, ne_of_gt hp0]⟩
        · exact ⟨0, by simp [tickCP, tickChange, tickOldPrice, hq, jOr, jgt, hp0]⟩
      | some q =>
        have hq0 : ¬ q = 0 := fun hc => hz (by rw [hq, hc])
        by_cases hqp : 0 < q
        · exact ⟨(p - q) / q * 100, by
            simp [tickCP, tickChange, tickOldPrice, hq, jOr, jgt, jsub, jdiv, jmul,
              hq0, hqp]⟩
        · exact ⟨0, by simp [tickCP, tickChange, tickOldPrice, hq, jOr, jgt, hq0, hqp]⟩
  · intro hz
    constructor
    · simp [tickChange, tickOldPrice, hz, jOr, jsub]
    · by_cases hp0 : 0 < p
      · simp [tickCP, tickChange, tickOldPrice, hz, jOr, jgt, jsub, jdiv, jmul,
          hp0, ne_of_gt hp0]
      · simp [tickCP, tickChange, tickOldPrice, hz, jOr, jgt, hp0]
  · intro hz
    constructor
    · simp [tickChange, tickOldPrice, hz, jOr, jsub]
    · by_cases hp0 : 0 < p
      · simp [tickCP, tickChange, tickOldPrice, hz, jOr, jgt, jsub, jdiv, jmul,
          hp0, ne_of_gt hp0]
      · simp [tickCP, tickChange, tickOldPrice, hz, jOr, jgt, hp0]
  · intro q hq hq0
    simp [tickChange, tickOldPrice, hq, jOr, jsub, hq0]
  · intro q hq hq0
    simp [tickCP, tickChange, tickOldPrice, hq, jOr, jgt, jsub, jdiv, jmul,
      hq0, ne_of_gt hq0]
  · intro q hq hq0
    simp [tickCP, tickOldPrice, hq, jOr, jgt, ne_of_lt hq0, asymm hq0]

/-- Witness for `C8_change_computation`: the first-ever BTC tick (no
previous price) yields change 0, and a 100 → 103 tick yields change 3
and changePercent 3. -/
theorem C8_change_computation_witness :
    ((processTickerUpdate initialState ⟨"BTC-USD", some 100⟩ 0).prices "BTC-USD").price
      = some 100 ∧
    ((processTickerUpdate initialState ⟨"BTC-USD", some 100⟩ 0).prices "BTC-USD").change
      = some 0 ∧
    ((processTickerUpdate initialState ⟨"BTC-USD", some 100⟩ 0).prices "BTC-USD").changePercent
      = some 0 ∧
    ((processTickerUpdate c3Base ⟨"BTC-USD", some 103⟩ 5).prices "BTC-USD").change
      = some (103 - 100) ∧
    ((processTickerUpdate c3Base ⟨"BTC-USD", some 103⟩ 5).prices "BTC-USD").changePercent
      = some ((103 - 100) / 100 * 100) := by
  have H1 := C8_change_computation initialState "BTC-USD" 100 0 (by decide)
  have H2 := C8_change_computation c3Base "BTC-USD" 103 5 (by decide)
  refine ⟨H1.1, (H1.2.2.2.1 (by decide)).1, (H1.2.2.2.1 (by decide)).2, ?_, ?_⟩
  · exact H2.2.2.2.2.2.1 100 (by decide) (by norm_num)
  · exact H2.2.2.2.2.2.2.1 100 (by decide) (by norm_num)

/-! ## C2: followRate at the read surfaces -/

/-- Claim C2 (refuted): after one success (stored followRate 1) and one
subsequent miss on the (BTC, ETH) relation, the matrix snapshot still
reports followRate 1, not the claimed quotient
`successfulFollows / (successfulFollows + missedFollows) = 1/2`: no
recomputation happens on read. -/
theorem C2_counterexample :
    ("BTC-USD", [("ETH-USD", (⟨1, 10, some (1/3), 1⟩ : MatrixEntry))])
      ∈ (apiMatrix c2State).matrix ∧
    (c2State.matrix "BTC-USD" "ETH-USD").successfulFollows = 1 ∧
    (c2State.matrix "BTC-USD" "ETH-USD").missedFollows = 1 ∧
    (⟨1, 10, some (1/3), 1⟩ : MatrixEntry).followRate ≠
      ((c2State.matrix "BTC-USD" "ETH-USD").successfulFollows : ℚ) /
      (((c2State.matrix "BTC-USD" "ETH-USD").successfulFollows : ℚ) +
        ((c2State.matrix "BTC-USD" "ETH-USD").missedFollows : ℚ)) := by
  refine ⟨by decide, by decide, by decide, by decide⟩

/-- Claim C2 (amended): every read surface (matrix snapshot, best
pairs, CSV) reports the relation's *stored* `followRate` verbatim; that
stored value equals `successfulFollows / (successfulFollows + m′)` for
the miss count `m′` at the most recent success (0 when no success has
occurred), where `m′` is at most the current `missedFollows`.  A miss
updates only the counts; nothing is recomputed on read, so after a miss
the reads report the stale quotient, not the current one. -/
theorem C2_followRate_amended (msgs : List (Ticker × Int)) (l f : String) :
    (∃ m', m' ≤ ((runTicks msgs).matrix l f).missedFollows ∧
      ((runTicks msgs).matrix l f).followRate =
        (((runTicks msgs).matrix l f).successfulFollows : ℚ) /
        ((((runTicks msgs).matrix l f).successfulFollows : ℚ) + (m' : ℚ))) ∧
    (∀ l' row f' e, (l', row) ∈ apiMatrixRows (runTicks msgs) → (f', e) ∈ row →
      e.followRate = ((runTicks msgs).matrix l' f').followRate) ∧
    (∀ q p, p ∈ (apiBestPairs (runTicks msgs) q).pairs →
      p.followRate = ((runTicks msgs).matrix p.leader p.follower).followRate) ∧
    (∀ r, r ∈ csvRows (runTicks msgs) →
      r.followRate = ((runTicks msgs).matrix r.leader r.follower).followRate) := by
  have hinv := runTicks_inv msgs
  refine ⟨(hinv l f).2, ?_, ?_, ?_⟩
  · intro l' row f' e h1 h2
    obtain ⟨_, he⟩ := mem_apiMatrixRows h1 h2
    rw [he]
    rfl
  · intro q p hp
    have hp1 : p ∈ collectPairs (runTicks msgs) (effectiveMinSamples q) := by
      have hp0 : p ∈ (collectPairs (runTicks msgs)
          (effectiveMinSamples q)).insertionSort rateGE :=
        List.take_subset _ _ hp
      exact (List.perm_insertionSort rateGE _).mem_iff.mp hp0
    obtain ⟨lx, fx, _, _, _, hpe, _, _⟩ := mem_collectPairs hp1
    rw [hpe]
    rfl
  · intro r hr
    obtain ⟨lx, fx, hre, _⟩ := mem_csvRows hr
    rw [hre]
    rfl

/-- Witness for `C2_followRate_amended`: the matrix-snapshot entry of
`c2State` for (BTC, ETH) reports exactly the stored followRate. -/
theorem C2_followRate_amended_witness :
    (⟨1, 10, some (1/3), 1⟩ : MatrixEntry).followRate
      = ((runTicks c2Ticks).matrix "BTC-USD" "ETH-USD").followRate := by
  have H := C2_followRate_amended c2Ticks "BTC-USD" "ETH-USD"
  exact H.2.1 "BTC-USD" [("ETH-USD", ⟨1, 10, some (1/3), 1⟩)] "ETH-USD"
    ⟨1, 10, some (1/3), 1⟩ (by decide) (by decide)

/-! ## C6: the best-pairs query -/

/-- Claim C6 (confirmed): the best-pairs query returns exactly the
relations with `successfulFollows + missedFollows ≥ minSampleSize`
(default 10) and stored `followRate > 0.6` (the relation's `followRate`
field — its relation to the live quotient is settled under C2), sorted
descending by `followRate`, truncated to the top 20, each entry carrying
`sampleSize = |lagTimes|` (`mkPairEntry`); in particular with
`minSamples = 10` a pair with 8 successes and 1 miss (9 total) is
excluded even though its followRate exceeds 0.6. -/
theorem C6_best_pairs (st : MarketState) (q : Option Int) :
    (apiBestPairs st q).pairs.length ≤ 20 ∧
    (∀ p ∈ (apiBestPairs st q).pairs,
      ((p.successfulFollows + p.missedFollows : Int) ≥ effectiveMinSamples q) ∧
      p.followRate > 3/5 ∧
      ∃ l f, l ∈ COINS ∧ f ∈ COINS ∧ f ≠ l ∧ p = mkPairEntry l f (st.matrix l f)) ∧
    (apiBestPairs st q).pairs.Pairwise rateGE ∧
    ((collectPairs st (effectiveMinSamples q)).length ≤ 20 →
      ∀ l f, l ∈ COINS → f ∈ COINS → f ≠ l →
        ((st.matrix l f).successfulFollows + (st.matrix l f).missedFollows : Int)
            ≥ effectiveMinSamples q →
        (st.matrix l f).followRate > 3/5 →
        mkPairEntry l f (st.matrix l f) ∈ (apiBestPairs st q).pairs) ∧
    (effectiveMinSamples q = 10 →
      ∀ p ∈ (apiBestPairs st q).pairs,
        ¬(p.successfulFollows = 8 ∧ p.missedFollows = 1)) := by
  have hmem : ∀ p ∈ (apiBestPairs st q).pairs,
      ((p.successfulFollows + p.missedFollows : Int) ≥ effectiveMinSamples q) ∧
      p.followRate > 3/5 ∧
      ∃ l f, l ∈ COINS ∧ f ∈ COINS ∧ f ≠ l ∧ p = mkPairEntry l f (st.matrix l f) := by
    intro p hp
    have hp1 : p ∈ collectPairs st (effectiveMinSamples q) := by
      have hp0 : p ∈ (collectPairs st (effectiveMinSamples q)).insertionSort rateGE :=
        List.take_subset _ _ hp
      exact (List.perm_insertionSort rateGE _).mem_iff.mp hp0
    obtain ⟨l, f, hl, hf, hne, hpe, htot, hrate⟩ := mem_collectPairs hp1
    subst hpe
    exact ⟨htot, hrate, l, f, hl, hf, hne, rfl⟩
  refine ⟨?_, hmem, ?_, ?_, ?_⟩
  · exact List.length_take_le 20 _
  · exact List.Pairwise.sublist (List.take_sublist 20 _)
      (List.sorted_insertionSort rateGE _)
  · intro hlen l f hl hf hne htot hrate
    have h1 : mkPairEntry l f (st.matrix l f) ∈
        collectPairs st (effectiveMinSamples q) :=
      mem_collectPairs_intro hl hf hne htot hrate
    have h2 : mkPairEntry l f (st.matrix l f) ∈
        (collectPairs st (effectiveMinSamples q)).insertionSort rateGE :=
      (List.perm_insertionSort rateGE _).mem_iff.mpr h1
    have h3 : ((collectPairs st (effectiveMinSamples q)).insertionSort
        rateGE).length ≤ 20 := by
      rw [List.length_insertionSort]
      exact hlen
    show mkPairEntry l f (st.matrix l f) ∈
      ((collectPairs st (effectiveMinSamples q)).insertionSort rateGE).take 20
    rw [List.take_of_length_le h3]
    exact h2
  · intro hq p hp hc
    have htot := (hmem p hp).1
    rw [hq, hc.1, hc.2] at htot
    omega

/-- Witness for `C6_best_pairs`: on `wState` (10 successes, 0 misses for
(BTC, ETH)) the qualifying pair is returned, meets the filter, and the
completeness direction puts it in the output. -/
theorem C6_best_pairs_witness :
    pW ∈ (apiBestPairs wState (some 10)).pairs ∧
    ((pW.successfulFollows + pW.missedFollows : Int) ≥ effectiveMinSamples (some 10)) ∧
    pW.followRate > 3/5 := by
  have H := C6_best_pairs wState (some 10)
  have hmem : pW ∈ (apiBestPairs wState (some 10)).pairs :=
    H.2.2.2.1 (by decide) "BTC-USD" "ETH-USD" (by decide) (by decide) (by decide)
      (by decide) (by decide)
  obtain ⟨h1, h2, _⟩ := H.2.1 pW hmem
  exact ⟨hmem, h1, h2⟩

/-- Witness for `C4_reads_amended` at a concrete state and times. -/
theorem C4_reads_amended_witness :
    (apiPrices c3Base 7 = apiPrices c3Base 7 ↔ (7 : Int) = 7) ∧
    (apiPrices c3Base 7).prices = (apiPrices c3Base 7).prices ∧
    (apiPrices c3Base 7).statistics = (apiPrices c3Base 7).statistics ∧
    apiHistory c3Base "BTC-USD" = apiHistory c3Base "BTC-USD" ∧
    apiMatrix c3Base = apiMatrix c3Base ∧
    apiBestPairs c3Base (some 10) = apiBestPairs c3Base (some 10) ∧
    csvRows c3Base = csvRows c3Base :=
  C4_reads_amended c3Base 7 7 (some 10) "BTC-USD"

end AlphaFlow
